import Mathlib

/-!
# Verification of the OSM-GeoJSON server core

A shallow embedding, in Lean 4, of the core of the OSM-GeoJSON MCP server:
the OSM-to-GeoJSON geometry converter (`converter.js`), the query cache
(`cache.js`), the resilient Overpass client (`overpass.js`, the variant with
cache and backoff that the tool layer calls), and the limit validator
(`prompt-parser.js`).  Each Lean definition mirrors one JavaScript function;
theorems at the end of the file settle the specification claims against these
definitions.
-/

set_option maxHeartbeats 1000000
set_option maxRecDepth 8000

namespace OsmGeo

/-! ## Data model for the geometry converter (converter.js)

The converter never performs arithmetic on coordinate values: longitudes and
latitudes are copied verbatim from the input elements into the output
geometries.  They are therefore represented by an opaque numeric type with
decidable equality; `Int` is used as that stand-in. -/

/-- A JavaScript number appearing as a coordinate component. -/
abbrev JsNum := Int

/-- The pair `[element.lon, element.lat]` that step 1 of `osmToGeoJSON` stores
in the node map.  The source stores the pair unconditionally for every node
element, even when `lon`/`lat` are `undefined`, hence the `Option`
components. -/
abbrev Coord := Option JsNum × Option JsNum

/-- An OSM tags object: a string-keyed mapping (JS object, keys unique). -/
abbrev Tags := List (String × String)

/-- Property read `tags[k]` on a JS object modelled as an association list. -/
def tagLookup (t : Tags) (k : String) : Option String :=
  (t.find? (fun p => p.1 = k)).map (fun p => p.2)

/-- `element.type === 'node'` elements: `{id, lon, lat, tags}`.  `lon`/`lat`
may be `undefined` in the source, hence `Option`. -/
structure NodeElement where
  id : Nat
  lon : Option JsNum
  lat : Option JsNum
  tags : Option Tags
deriving DecidableEq, Repr

/-- `element.type === 'way'` elements: `{id, nodes, tags}`.  `element.nodes`
may be `undefined` (the code guards with `element.nodes && ...`). -/
structure WayElement where
  id : Nat
  nodes : Option (List Nat)
  tags : Option Tags
deriving DecidableEq, Repr

/-- One entry of `relation.members`.  The converter reads `member.type`,
`member.role` and `member.nodes`; `ref` is the member id carried by the data
model but never read by the converter. -/
structure RelationMember where
  type : String
  ref : Nat
  role : String
  nodes : Option (List Nat)
deriving DecidableEq, Repr

/-- `element.type === 'relation'` elements: `{id, members, tags}`. -/
structure RelationElement where
  id : Nat
  members : Option (List RelationMember)
  tags : Option Tags
deriving DecidableEq, Repr

/-- The tagged union of the three element variants of the flat Overpass
element list. -/
inductive OsmElement
  | node (n : NodeElement)
  | way (w : WayElement)
  | relation (r : RelationElement)
deriving DecidableEq, Repr

/-- The parsed Overpass response passed to `osmToGeoJSON`:
`{elements: [...]}`; the code guards with `if (!osmData.elements)`. -/
structure OsmData where
  elements : Option (List OsmElement)
deriving DecidableEq, Repr

/-- The node-id-to-coordinate mapping `nodes` built by step 1 of
`osmToGeoJSON`.  In the source it is a JS object keyed by node id; a later
assignment to the same id overwrites an earlier one, which is modelled by
prepending new entries and looking up the first match. -/
abbrev NodeMap := List (Nat × Coord)

/-- Step 1 of `osmToGeoJSON`: scan the full element list, storing
`[element.lon, element.lat]` for every node element. -/
def collectNodes (elems : List OsmElement) : NodeMap :=
  elems.foldl
    (fun m e =>
      match e with
      | .node n => (n.id, (n.lon, n.lat)) :: m
      | _ => m)
    []

/-- The read `nodes[nodeId]` on the node map. -/
def lookupNode (m : NodeMap) (i : Nat) : Option Coord :=
  (m.find? (fun p => p.1 = i)).map (fun p => p.2)

/-- GeoJSON geometries produced by the converter. -/
inductive Geometry
  | point (c : Coord)
  | lineString (coords : List Coord)
  | polygon (rings : List (List Coord))
  | multiPolygon (polygons : List (List (List Coord)))
deriving DecidableEq, Repr

/-- The idiom `nodeIds.map(id => nodes[id]).filter(c => c !== undefined)`:
resolve node ids through the map, silently dropping unresolvable ids. -/
def resolveCoordinates (nm : NodeMap) (nodeIds : List Nat) : List Coord :=
  nodeIds.filterMap (lookupNode nm)

/-- `relation.tags && relation.tags.type === 'multipolygon'`-style test:
the tags object is present and maps `k` to exactly `v`. -/
def tagIs (tags : Option Tags) (k v : String) : Bool :=
  match tags with
  | some t => tagLookup t k = some v
  | none => false

/-- JS truthiness of `relation.tags.boundary`: the tags object is present and
the key maps to a truthy value (for string tag values, any non-empty
string). -/
def hasTruthyTag (tags : Option Tags) (k : String) : Bool :=
  match tags with
  | some t =>
    match tagLookup t k with
    | some v => v ≠ ""
    | none => false
  | none => false

/-- The per-member body of the multipolygon loop in
`convertRelationToGeometry`: a member contributes a ring for `role` when it is
a way with a defined node list whose resolved coordinates number more than 3
and its role equals `role`. -/
def memberRing (nm : NodeMap) (role : String) (m : RelationMember) :
    Option (List Coord) :=
  if m.type = "way" then
    match m.nodes with
    | some ns =>
      let coordinates := resolveCoordinates nm ns
      if coordinates.length > 3 ∧ m.role = role then some coordinates else none
    | none => none
  else none

/-- The per-member body of the boundary loop in `convertRelationToGeometry`:
a member contributes its resolved coordinates to the concatenated chain when
it is a way with a defined node list resolving more than one coordinate. -/
def memberChain (nm : NodeMap) (m : RelationMember) : List Coord :=
  if m.type = "way" then
    match m.nodes with
    | some ns =>
      let coordinates := resolveCoordinates nm ns
      if coordinates.length > 1 then coordinates else []
    | none => []
  else []

/-- `convertRelationToGeometry(relation, nodes)` from converter.js.  The
multipolygon branch only returns from inside `if (outerRings.length > 0)`;
when no outer ring qualifies, control falls through to the boundary branch. -/
def convertRelationToGeometry (relation : RelationElement) (nodes : NodeMap) :
    Option Geometry :=
  match relation.members with
  | none => none
  | some members =>
    if members.length = 0 then none
    else
      let multipolygonResult : Option Geometry :=
        if tagIs relation.tags "type" "multipolygon" then
          let outerRings := members.filterMap (memberRing nodes "outer")
          let innerRings := members.filterMap (memberRing nodes "inner")
          match outerRings with
          | [] => none
          | [ring] => some (.polygon (ring :: innerRings))
          | rings => some (.multiPolygon (rings.map (fun ring => [ring])))
        else none
      match multipolygonResult with
      | some g => some g
      | none =>
        if hasTruthyTag relation.tags "boundary" then
          let allCoordinates := (members.map (memberChain nodes)).flatten
          if allCoordinates.length > 1 then some (.lineString allCoordinates)
          else none
        else none

/-- The per-element `switch` of step 2 of `osmToGeoJSON`, producing the
geometry (or `null`) for one element. -/
def elementGeometry (nodes : NodeMap) : OsmElement → Option Geometry
  | .node n =>
    match n.lon, n.lat with
    | some lonVal, some latVal => some (.point (some lonVal, some latVal))
    | _, _ => none
  | .way w =>
    match w.nodes with
    | some ns =>
      if ns.length > 0 then
        let coordinates := resolveCoordinates nodes ns
        if coordinates.length > 0 then
          if ns.head? = ns.getLast? ∧ coordinates.length > 3 then
            some (.polygon [coordinates])
          else
            some (.lineString coordinates)
        else none
      else none
    | none => none
  | .relation r => convertRelationToGeometry r nodes

/-- `${element.type}` used in the feature id template. -/
def elementTypeName : OsmElement → String
  | .node _ => "node"
  | .way _ => "way"
  | .relation _ => "relation"

/-- `element.id`. -/
def elementId : OsmElement → Nat
  | .node n => n.id
  | .way w => w.id
  | .relation r => r.id

/-- `element.tags`. -/
def elementTags : OsmElement → Option Tags
  | .node n => n.tags
  | .way w => w.tags
  | .relation r => r.tags

/-- A GeoJSON feature as built by `osmToGeoJSON`. -/
structure Feature where
  id : String
  properties : Tags
  geometry : Geometry
deriving DecidableEq, Repr

/-- The feature-wrapping step of `osmToGeoJSON`: when a geometry was produced,
wrap it with id `element.type + "/" + element.id` and properties
`element.tags || plain-empty-object`. -/
def elementToFeature (nodes : NodeMap) (e : OsmElement) : Option Feature :=
  (elementGeometry nodes e).map
    (fun g =>
      { id := elementTypeName e ++ "/" ++ toString (elementId e)
        properties := (elementTags e).getD []
        geometry := g })

/-- The converter output: a GeoJSON FeatureCollection. -/
structure FeatureCollection where
  features : List Feature
deriving DecidableEq, Repr

/-- `osmToGeoJSON(osmData)` from converter.js: build the node map, then
convert each element in list order, keeping the elements that produced a
geometry. -/
def osmToGeoJSON (osmData : OsmData) : FeatureCollection :=
  match osmData.elements with
  | none => { features := [] }
  | some elems =>
    let nodes := collectNodes elems
    { features := elems.filterMap (elementToFeature nodes) }

/-! ## QueryCache (cache.js)

The cache is a JS `Map` from query digests to entries.  A `Map` preserves
insertion order, `set` on a present key overwrites in place, and iteration
(used by `evictOldest`) visits entries in insertion order; all of this is
modelled by a list of key-entry pairs with the operations below. -/

/-- One cache entry: `{data, timestamp, lastAccessed}`. -/
structure CacheEntry (α : Type) where
  data : α
  timestamp : Nat
  lastAccessed : Nat
deriving DecidableEq, Repr

/-- The underlying `Map` contents, in insertion order. -/
abbrev CacheTable (α : Type) := List (String × CacheEntry α)

/-- `map.has(k)`. -/
def mapHas (m : CacheTable α) (k : String) : Bool :=
  m.any (fun p => p.1 = k)

/-- `map.get(k)`. -/
def mapGet (m : CacheTable α) (k : String) : Option (CacheEntry α) :=
  (m.find? (fun p => p.1 = k)).map (fun p => p.2)

/-- `map.set(k, e)`: overwrite in place when the key is present, otherwise
append at the end (JS `Map` insertion-order semantics). -/
def mapSet (m : CacheTable α) (k : String) (e : CacheEntry α) : CacheTable α :=
  if mapHas m k then m.map (fun p => if p.1 = k then (k, e) else p)
  else m ++ [(k, e)]

/-- `map.delete(k)`. -/
def mapDelete (m : CacheTable α) (k : String) : CacheTable α :=
  m.filter (fun p => ¬ p.1 = k)

/-- `QueryCache` state: the entry table plus the configured bounds. -/
structure QueryCache (α : Type) where
  entries : CacheTable α
  maxSize : Nat
  ttl : Nat
deriving DecidableEq, Repr

/-- `generateKey(query)` computes a SHA-256 hex digest of the query string.
Only key equality is ever observed, and textually identical queries produce
identical digests, so the digest is modelled as the identity map on query
strings (hash collisions are assumed away, as the spec does). -/
def generateKey (query : String) : String := query

/-- `options.maxSize || 100`: a JS `||` default, under which `0` and absence
both fall back to the default. -/
def jsOrDefault (provided : Option Nat) (dflt : Nat) : Nat :=
  match provided with
  | some n => if n = 0 then dflt else n
  | none => dflt

/-- The `QueryCache` constructor: `maxSize` defaults to 100 and `ttl` to
15 minutes (in milliseconds) via JS `||` defaults. -/
def mkQueryCache (maxSize ttl : Option Nat) : QueryCache α :=
  { entries := []
    maxSize := jsOrDefault maxSize 100
    ttl := jsOrDefault ttl (15 * 60 * 1000) }

/-- One step of the `evictOldest` scan: keep the first entry seen whose
`lastAccessed` is strictly smaller than the best so far (`oldestTime` starts
at `Infinity`, modelled by the `none` accumulator). -/
def oldestStep (best : Option (String × Nat)) (p : String × CacheEntry α) :
    Option (String × Nat) :=
  match best with
  | none => some (p.1, p.2.lastAccessed)
  | some (k, t) =>
    if p.2.lastAccessed < t then some (p.1, p.2.lastAccessed) else some (k, t)

/-- The scan of `evictOldest`: the key of the first entry, in insertion
order, with minimal `lastAccessed` (`none` on an empty table). -/
def findOldest (m : CacheTable α) : Option (String × Nat) :=
  m.foldl oldestStep none

/-- `evictOldest()`: delete the entry found by the scan, if any. -/
def evictOldest (c : QueryCache α) : QueryCache α :=
  match findOldest c.entries with
  | some (k, _) => { c with entries := mapDelete c.entries k }
  | none => c

/-- `set(query, data)` at clock value `now` (`Date.now()`): evict the
least-recently-accessed entry when inserting a new key at capacity, then
store the entry with both timestamps set to `now`. -/
def cacheSet (c : QueryCache α) (query : String) (d : α) (now : Nat) :
    QueryCache α :=
  let key := generateKey query
  let c' :=
    if c.entries.length ≥ c.maxSize ∧ ¬ mapHas c.entries key then evictOldest c
    else c
  { c' with entries := mapSet c'.entries key { data := d, timestamp := now, lastAccessed := now } }

/-- `get(query)` at clock value `now`: absent keys return `null`; an entry
older than the TTL is deleted at lookup time and `null` is returned; a live
entry has its `lastAccessed` updated and its data returned.  (JS computes
`Date.now() - entry.timestamp > this.ttl` on real numbers; truncated `Nat`
subtraction agrees with it for every `now`, since a negative difference and a
truncated-to-zero difference are both `≤ ttl`.) -/
def cacheGet (c : QueryCache α) (query : String) (now : Nat) :
    Option α × QueryCache α :=
  let key := generateKey query
  match mapGet c.entries key with
  | none => (none, c)
  | some entry =>
    if now - entry.timestamp > c.ttl then
      (none, { c with entries := mapDelete c.entries key })
    else
      (some entry.data,
       { c with entries := mapSet c.entries key { entry with lastAccessed := now } })

/-- `cleanup()`: the periodic sweep deleting all entries older than the TTL
(a best-effort optimization; expiry is also enforced at lookup time by
`cacheGet`). -/
def cacheCleanup (c : QueryCache α) (now : Nat) : QueryCache α :=
  { c with entries := c.entries.filter (fun p => ¬ now - p.2.timestamp > c.ttl) }

/-- A sequence of `set` operations, each with its own clock value. -/
def applySets (c : QueryCache α) (ops : List (String × α × Nat)) : QueryCache α :=
  ops.foldl (fun st op => cacheSet st op.1 op.2.1 op.2.2) c

/-! ## Resilient Overpass client (overpass.js, the cached variant used by the
tool layer)

The transport is abstracted as an oracle mapping a server index to the
outcome `httpsRequest` would deliver for that server during this call; the
surrounding retry loop, backoff arithmetic, round-robin index handling, error
aggregation and cache interaction are embedded faithfully. -/

/-- One configured Overpass server: `{url, host}`. -/
structure ServerEndpoint where
  url : String
  host : String
deriving DecidableEq, Repr

/-- The outcome of one `httpsRequest` call: a parsed response, or a rejection
carrying the error message string. -/
inductive AttemptOutcome (α : Type)
  | success (response : α)
  | failure (message : String)
deriving DecidableEq, Repr

/-- The outcome of `JSON.parse` on a response body. -/
inductive ParseResult (α : Type)
  | ok (value : α)
  | error (message : String)
deriving DecidableEq, Repr

/-- `String.prototype.includes(sub)`. -/
def jsIncludes (s sub : String) : Bool :=
  s.toList.tails.any (fun t => sub.toList.isPrefixOf t)

/-- The response handler of `httpsRequest` (converter of a completed HTTP
exchange into an outcome): status 200 with a parseable body resolves with the
parsed value; status 200 with an unparseable body rejects with
`Failed to parse response: ...`; any other status rejects with
`HTTP status: first-200-chars-of-body`. -/
def httpsRequestOutcome (statusCode : Nat) (body : String)
    (parse : ParseResult α) : AttemptOutcome α :=
  if statusCode = 200 then
    match parse with
    | .ok v => .success v
    | .error m => .failure ("Failed to parse response: " ++ m)
  else
    .failure ("HTTP " ++ toString statusCode ++ ": " ++ body.take 200)

/-- The backoff applied after a failed attempt with loop counter
`attemptIndex` and error message `message`: messages containing `429` get
`Math.min(5000 * 2 ** attemptIndex, 30000)`; otherwise messages containing
`500`, `502` or `503` get a fixed 2000; every other failure gets no delay. -/
def backoffDelay (attemptIndex : Nat) (message : String) : Nat :=
  if jsIncludes message "429" then min (5000 * 2 ^ attemptIndex) 30000
  else if jsIncludes message "500" || jsIncludes message "502" ||
      jsIncludes message "503" then 2000
  else 0

/-- `${lastError?.message}` inside a template literal: interpolating a missing
value prints the string `undefined`. -/
def jsOptMessage : Option String → String
  | some m => m
  | none => "undefined"

/-- The observable result of the retry loop of `query`: the returned value or
thrown error, the round-robin index after the call, the server indices
attempted in order, and the backoff delay slept after each failed attempt. -/
structure QueryRun (α : Type) where
  result : Except String α
  currentServerIndex : Nat
  attempted : List Nat
  sleeps : List Nat
deriving Repr

/-- The retry loop of `query`, iterating over the remaining loop counters
(`for (let i = 0; i < this.servers.length; i++)`), with `n` servers, entry
round-robin index `cur`, and transport oracle `net`. -/
def queryGo (n cur : Nat) (net : Nat → AttemptOutcome α) :
    List Nat → Option String → QueryRun α
  | [], lastError =>
    { result := .error ("All servers failed. Last error: " ++ jsOptMessage lastError)
      currentServerIndex := cur
      attempted := []
      sleeps := [] }
  | i :: rest, lastError =>
    let serverIndex := (cur + i) % n
    match net serverIndex with
    | .success r =>
      { result := .ok r
        currentServerIndex := serverIndex
        attempted := [serverIndex]
        sleeps := [] }
    | .failure msg =>
      let sub := queryGo n cur net rest (some msg)
      { result := sub.result
        currentServerIndex := sub.currentServerIndex
        attempted := serverIndex :: sub.attempted
        sleeps := backoffDelay i msg :: sub.sleeps }

/-- The full retry loop of one `query` call over all `n` loop counters. -/
def runQuery (n cur : Nat) (net : Nat → AttemptOutcome α) : QueryRun α :=
  queryGo n cur net (List.range n) none

/-- The attempt order of one call: server indices `(cur + i) % n` for
`i = 0, …, n-1` — the pool visited once, starting at the preferred index and
wrapping around. -/
def visitOrder (n cur : Nat) : List Nat :=
  (List.range n).map (fun i => (cur + i) % n)

/-- Client state threaded through `query`: the configured server pool, the
round-robin index, and the cache. -/
structure ClientState (α : Type) where
  servers : List ServerEndpoint
  currentServerIndex : Nat
  cache : QueryCache α
deriving Repr

/-- The observable result of one `query(queryString, bypassCache, toolName)`
call. -/
structure ClientResult (α : Type) where
  result : Except String α
  state : ClientState α
  attempted : List Nat
  sleeps : List Nat
deriving Repr

/-- `query(queryString, bypassCache, toolName)` from the cached overpass.js:
consult the cache unless bypassed (a `get` may lazily delete an expired
entry), then walk the servers round-robin; on success remember the successful
index and store the response in the cache unless bypassed; if every server
fails, surface the single aggregated error.  One logical clock value `now`
serves the call; none of the verified claims depend on intra-call clock
drift. -/
def clientQuery (st : ClientState α) (queryString : String) (bypassCache : Bool)
    (now : Nat) (net : Nat → AttemptOutcome α) : ClientResult α :=
  let afterGet :=
    if bypassCache then (none, st.cache) else cacheGet st.cache queryString now
  match afterGet.1 with
  | some v =>
    { result := .ok v
      state := { st with cache := afterGet.2 }
      attempted := []
      sleeps := [] }
  | none =>
    let run := runQuery st.servers.length st.currentServerIndex net
    match run.result with
    | .ok resp =>
      let cacheFinal :=
        if bypassCache then afterGet.2
        else cacheSet afterGet.2 queryString resp now
      { result := .ok resp
        state := { st with currentServerIndex := run.currentServerIndex
                           cache := cacheFinal }
        attempted := run.attempted
        sleeps := run.sleeps }
    | .error e =>
      { result := .error e
        state := { st with cache := afterGet.2 }
        attempted := run.attempted
        sleeps := run.sleeps }

/-! ## Limit validation (prompt-parser.js) -/

/-- The JS value passed as `limit` to `validateParsedLimit`, classified the
way the function's guards observe it: `null`, `undefined`, a value whose
`typeof` is not `number`, a number that is not an integer, or an integer. -/
inductive JsLimitArg
  | jsNull
  | jsUndefined
  | jsNonNumber (typeName : String)
  | jsNonIntegerNumber
  | jsInteger (n : Int)
deriving DecidableEq, Repr

/-- The object returned by `validateParsedLimit`.  JS returns objects with
different field sets per branch; an absent field is `none`, and the JS value
`null` stored in `normalizedLimit` is `some none`. -/
structure LimitValidation where
  isValid : Bool
  normalizedLimit : Option (Option Int) := none
  error : Option String := none
  warnings : Option (List String) := none
deriving DecidableEq, Repr

/-- `validateParsedLimit(limit)` from prompt-parser.js. -/
def validateParsedLimit (limit : JsLimitArg) : LimitValidation :=
  match limit with
  | .jsNull => { isValid := true, normalizedLimit := some none }
  | .jsUndefined => { isValid := true, normalizedLimit := some none }
  | .jsNonNumber _ =>
    { isValid := false, error := some "制限値は整数である必要があります" }
  | .jsNonIntegerNumber =>
    { isValid := false, error := some "制限値は整数である必要があります" }
  | .jsInteger n =>
    if n < 1 then
      { isValid := false, error := some "制限値は1以上である必要があります" }
    else if n > 10000 then
      { isValid := false
        error := some "制限値は10000以下である必要があります（サーバー負荷を考慮）" }
    else
      { isValid := true
        normalizedLimit := some (some n)
        warnings := some
          (if n > 1000 then ["1000件を超える取得は時間がかかる可能性があります"] else []) }

/-! ## Theorems

General lemmas first, then one theorem per specification claim (with a
closed witness where the claim theorem carries hypotheses). -/

/-- The feature list of a conversion is the element list filtered through the
per-element converter, over the node map of the full list. -/
theorem osmToGeoJSON_features (elems : List OsmElement) :
    (osmToGeoJSON { elements := some elems }).features =
      elems.filterMap (elementToFeature (collectNodes elems)) := rfl

/-- C2: A way whose node-id list is defined, non-empty, closed (first id
equals last id) and resolves at least 4 coordinates becomes exactly one
Polygon feature whose single ring is the resolved coordinate sequence; a way
that misses one of the two polygon conditions but still resolves at least one
coordinate becomes a LineString feature instead; a way resolving no
coordinate (or with no node-id list) produces no feature. -/
theorem closed_way_polygon_conversion (nm : NodeMap) (w : WayElement) :
    (w.nodes = none → elementToFeature nm (.way w) = none)
    ∧ (∀ ns, w.nodes = some ns →
        (ns ≠ [] → ns.head? = ns.getLast? →
            4 ≤ (resolveCoordinates nm ns).length →
          elementToFeature nm (.way w) =
            some { id := "way/" ++ toString w.id, properties := w.tags.getD [],
                   geometry := .polygon [resolveCoordinates nm ns] })
        ∧ (¬ (ns.head? = ns.getLast? ∧ 4 ≤ (resolveCoordinates nm ns).length) →
            1 ≤ (resolveCoordinates nm ns).length →
          elementToFeature nm (.way w) =
            some { id := "way/" ++ toString w.id, properties := w.tags.getD [],
                   geometry := .lineString (resolveCoordinates nm ns) })
        ∧ (resolveCoordinates nm ns = [] →
          elementToFeature nm (.way w) = none)) := by
  constructor
  · intro h
    simp [elementToFeature, elementGeometry, h]
  · intro ns hns
    refine ⟨?_, ?_, ?_⟩
    · intro hne hcl hlen
      have h0 : ns.length > 0 := List.length_pos.mpr hne
      have h1 : (resolveCoordinates nm ns).length > 0 := by omega
      have h2 : ns.head? = ns.getLast? ∧ (resolveCoordinates nm ns).length > 3 :=
        ⟨hcl, by omega⟩
      simp [elementToFeature, elementGeometry, hns, h0, h1, h2,
        elementTypeName, elementId, elementTags]
    · intro hnot hlen
      have h1 : (resolveCoordinates nm ns).length > 0 := by omega
      have h0 : ns.length > 0 := by
        rcases ns with _ | ⟨a, t⟩
        · simp [resolveCoordinates] at h1
        · simp
      have h2 : ¬ (ns.head? = ns.getLast? ∧ (resolveCoordinates nm ns).length > 3) := by
        intro h
        exact hnot ⟨h.1, by omega⟩
      simp [elementToFeature, elementGeometry, hns, h0, h1, h2,
        elementTypeName, elementId, elementTags]
    · intro hzero
      rcases ns with _ | ⟨a, t⟩
      · simp [elementToFeature, elementGeometry, hns]
      · simp [elementToFeature, elementGeometry, hns, hzero]

/-- C2 witness: the spec's end-to-end closed-way scenario, derived from
`closed_way_polygon_conversion` at the concrete square way. -/
theorem closed_way_polygon_conversion_witness :
    elementToFeature
        (collectNodes
          [ .node { id := 1, lon := some 0, lat := some 0, tags := none },
            .node { id := 2, lon := some 1, lat := some 0, tags := none },
            .node { id := 3, lon := some 1, lat := some 1, tags := none },
            .node { id := 4, lon := some 0, lat := some 1, tags := none } ])
        (.way { id := 10, nodes := some [1, 2, 3, 4, 1],
                tags := some [("building", "yes")] }) =
      some { id := "way/10", properties := [("building", "yes")],
             geometry := .polygon
               [[(some 0, some 0), (some 1, some 0), (some 1, some 1),
                 (some 0, some 1), (some 0, some 0)]] } := by
  have h := (closed_way_polygon_conversion
      (collectNodes
        [ .node { id := 1, lon := some 0, lat := some 0, tags := none },
          .node { id := 2, lon := some 1, lat := some 0, tags := none },
          .node { id := 3, lon := some 1, lat := some 1, tags := none },
          .node { id := 4, lon := some 0, lat := some 1, tags := none } ])
      { id := 10, nodes := some [1, 2, 3, 4, 1],
        tags := some [("building", "yes")] }).2
      [1, 2, 3, 4, 1] rfl
  have hp := h.1 (by decide) (by decide) (by decide)
  rw [hp]
  decide

/-- C1: A relation tagged `type=multipolygon` whose members are exactly
one way in role `outer` (closed, its five node ids resolving through the node
map built from the flat element list) and one way in role `inner` (closed,
four resolvable node ids) converts to a single feature whose geometry is a
Polygon with rings exactly `[outerRing, innerRing]`. -/
theorem multipolygon_single_outer_inner (elems : List OsmElement)
    (r : RelationElement) (outerM innerM : RelationMember)
    (n1 n2 n3 n4 m1 m2 m3 oref iref : Nat) (c1 c2 c3 c4 d1 d2 d3 : Coord)
    (h1 : lookupNode (collectNodes elems) n1 = some c1)
    (h2 : lookupNode (collectNodes elems) n2 = some c2)
    (h3 : lookupNode (collectNodes elems) n3 = some c3)
    (h4 : lookupNode (collectNodes elems) n4 = some c4)
    (h5 : lookupNode (collectNodes elems) m1 = some d1)
    (h6 : lookupNode (collectNodes elems) m2 = some d2)
    (h7 : lookupNode (collectNodes elems) m3 = some d3)
    (ho : outerM = { type := "way", ref := oref, role := "outer",
                     nodes := some [n1, n2, n3, n4, n1] })
    (hi : innerM = { type := "way", ref := iref, role := "inner",
                     nodes := some [m1, m2, m3, m1] })
    (hmem : r.members = some [outerM, innerM])
    (htype : tagIs r.tags "type" "multipolygon" = true) :
    elementToFeature (collectNodes elems) (.relation r) =
      some { id := "relation/" ++ toString r.id, properties := r.tags.getD [],
             geometry := .polygon [[c1, c2, c3, c4, c1], [d1, d2, d3, d1]] }
    ∧ (osmToGeoJSON { elements := some elems }).features =
        elems.filterMap (elementToFeature (collectNodes elems)) := by
  subst ho hi
  refine ⟨?_, rfl⟩
  simp only [elementToFeature, elementGeometry, convertRelationToGeometry,
    hmem, htype, elementTypeName, elementId, elementTags]
  simp [memberRing, resolveCoordinates, h1, h2, h3, h4, h5, h6, h7]

/-- C1 witness: the end-to-end multipolygon scenario at a concrete
element list (square outer ring, triangular inner ring), derived from
`multipolygon_single_outer_inner`. -/
theorem multipolygon_single_outer_inner_witness :
    elementToFeature
        (collectNodes
          [ .node { id := 1, lon := some 0, lat := some 0, tags := none },
            .node { id := 2, lon := some 4, lat := some 0, tags := none },
            .node { id := 3, lon := some 4, lat := some 4, tags := none },
            .node { id := 4, lon := some 0, lat := some 4, tags := none },
            .node { id := 5, lon := some 1, lat := some 1, tags := none },
            .node { id := 6, lon := some 2, lat := some 1, tags := none },
            .node { id := 7, lon := some 1, lat := some 2, tags := none } ])
        (.relation
          { id := 9,
            members := some
              [ { type := "way", ref := 100, role := "outer",
                  nodes := some [1, 2, 3, 4, 1] },
                { type := "way", ref := 101, role := "inner",
                  nodes := some [5, 6, 7, 5] } ],
            tags := some [("type", "multipolygon")] }) =
      some { id := "relation/9", properties := [("type", "multipolygon")],
             geometry := .polygon
               [[(some 0, some 0), (some 4, some 0), (some 4, some 4),
                 (some 0, some 4), (some 0, some 0)],
                [(some 1, some 1), (some 2, some 1), (some 1, some 2),
                 (some 1, some 1)]] } :=
  (multipolygon_single_outer_inner
    [ .node { id := 1, lon := some 0, lat := some 0, tags := none },
      .node { id := 2, lon := some 4, lat := some 0, tags := none },
      .node { id := 3, lon := some 4, lat := some 4, tags := none },
      .node { id := 4, lon := some 0, lat := some 4, tags := none },
      .node { id := 5, lon := some 1, lat := some 1, tags := none },
      .node { id := 6, lon := some 2, lat := some 1, tags := none },
      .node { id := 7, lon := some 1, lat := some 2, tags := none } ]
    { id := 9,
      members := some
        [ { type := "way", ref := 100, role := "outer",
            nodes := some [1, 2, 3, 4, 1] },
          { type := "way", ref := 101, role := "inner",
            nodes := some [5, 6, 7, 5] } ],
      tags := some [("type", "multipolygon")] }
    { type := "way", ref := 100, role := "outer", nodes := some [1, 2, 3, 4, 1] }
    { type := "way", ref := 101, role := "inner", nodes := some [5, 6, 7, 5] }
    1 2 3 4 5 6 7 100 101
    (some 0, some 0) (some 4, some 0) (some 4, some 4) (some 0, some 4)
    (some 1, some 1) (some 2, some 1) (some 1, some 2)
    (by decide) (by decide) (by decide) (by decide) (by decide) (by decide)
    (by decide) rfl rfl rfl (by decide)).1

/-- C8: Conversion is a total function to a FeatureCollection: on any
input it yields at most one feature per input element, every output feature
is the converted image of some input element, and the degenerate relation
shapes the claim lists (missing member list, unrecognized tag shape) produce
no feature rather than an error. -/
theorem converter_total_and_degrading (d : OsmData) :
    (osmToGeoJSON d).features.length ≤ (d.elements.getD []).length
    ∧ (∀ f ∈ (osmToGeoJSON d).features,
        ∃ e ∈ d.elements.getD [],
          elementToFeature (collectNodes (d.elements.getD [])) e = some f)
    ∧ (∀ (nm : NodeMap) (r : RelationElement), r.members = none →
        elementToFeature nm (.relation r) = none)
    ∧ (∀ (nm : NodeMap) (r : RelationElement) (ms : List RelationMember),
        r.members = some ms → tagIs r.tags "type" "multipolygon" = false →
        hasTruthyTag r.tags "boundary" = false →
        elementToFeature nm (.relation r) = none) := by
  refine ⟨?_, ?_, ?_, ?_⟩
  · rcases d with ⟨_ | elems⟩
    · simp [osmToGeoJSON]
    · simpa [osmToGeoJSON] using List.length_filterMap_le _ elems
  · rcases d with ⟨_ | elems⟩
    · simp [osmToGeoJSON]
    · intro f hf
      simp only [osmToGeoJSON, Option.getD] at hf ⊢
      exact List.mem_filterMap.mp hf
  · intro nm r h
    simp [elementToFeature, elementGeometry, convertRelationToGeometry, h]
  · intro nm r ms hms htype hbnd
    simp [elementToFeature, elementGeometry, convertRelationToGeometry,
      hms, htype, hbnd]

/-- C8 witness: the malformed-input scenario (a way with unresolvable
node ids, a relation with a missing member list, a relation of unrecognized
shape) still converts, producing a dropped feature for each. -/
theorem converter_total_and_degrading_witness :
    (osmToGeoJSON
        { elements := some
            [ .way { id := 1, nodes := some [100, 200], tags := none },
              .relation { id := 2, members := none, tags := none },
              .relation { id := 3,
                          members := some
                            [ { type := "node", ref := 5, role := "",
                                nodes := none } ],
                          tags := some [("amenity", "school")] } ] }).features.length ≤ 3 := by
  have h := (converter_total_and_degrading
    { elements := some
        [ .way { id := 1, nodes := some [100, 200], tags := none },
          .relation { id := 2, members := none, tags := none },
          .relation { id := 3,
                      members := some
                        [ { type := "node", ref := 5, role := "",
                            nodes := none } ],
                      tags := some [("amenity", "school")] } ] }).1
  simpa using h

/-- C10: The two recognized relation shapes are not exclusive: a relation
carrying both `type=multipolygon` and a (truthy) `boundary` tag, none of
whose members yields a qualifying outer ring, falls through to the boundary
handling and becomes a LineString concatenating the qualifying member
chains (when that concatenation has more than one point), instead of
producing no feature. -/
theorem multipolygon_boundary_fallthrough (nm : NodeMap) (r : RelationElement)
    (ms : List RelationMember)
    (hm : r.members = some ms) (hne : ms ≠ [])
    (htype : tagIs r.tags "type" "multipolygon" = true)
    (hbnd : hasTruthyTag r.tags "boundary" = true)
    (houter : ∀ m ∈ ms, memberRing nm "outer" m = none)
    (hlen : 1 < ((ms.map (memberChain nm)).flatten).length) :
    convertRelationToGeometry r nm =
      some (.lineString ((ms.map (memberChain nm)).flatten))
    ∧ elementToFeature nm (.relation r) =
        some { id := "relation/" ++ toString r.id, properties := r.tags.getD [],
               geometry := .lineString ((ms.map (memberChain nm)).flatten) } := by
  have hfm : ms.filterMap (memberRing nm "outer") = [] :=
    List.filterMap_eq_nil_iff.mpr houter
  have hlen0 : ¬ ms.length = 0 := by
    simpa [List.length_eq_zero] using hne
  have hlen' : 1 < (List.map (List.length ∘ memberChain nm) ms).sum := by
    simpa using hlen
  have hconv : convertRelationToGeometry r nm =
      some (.lineString ((ms.map (memberChain nm)).flatten)) := by
    simp [convertRelationToGeometry, hm, hlen0, htype, hfm, hbnd, hlen']
  refine ⟨hconv, ?_⟩
  simp [elementToFeature, elementGeometry, hconv, elementTypeName, elementId,
    elementTags]

/-- C10 witness: a concrete relation tagged both `multipolygon` and
`boundary` whose outer ways are too short to be rings falls through to a
LineString, via `multipolygon_boundary_fallthrough`. -/
theorem multipolygon_boundary_fallthrough_witness :
    convertRelationToGeometry
        { id := 11,
          members := some
            [ { type := "way", ref := 100, role := "outer", nodes := some [1, 2] },
              { type := "way", ref := 101, role := "outer", nodes := some [3, 4] } ],
          tags := some [("type", "multipolygon"), ("boundary", "administrative")] }
        [(1, (some 0, some 0)), (2, (some 4, some 0)), (3, (some 4, some 4)),
         (4, (some 0, some 4))] =
      some (.lineString
        [(some 0, some 0), (some 4, some 0), (some 4, some 4), (some 0, some 4)]) := by
  have h := (multipolygon_boundary_fallthrough
    [(1, (some 0, some 0)), (2, (some 4, some 0)), (3, (some 4, some 4)),
     (4, (some 0, some 4))]
    { id := 11,
      members := some
        [ { type := "way", ref := 100, role := "outer", nodes := some [1, 2] },
          { type := "way", ref := 101, role := "outer", nodes := some [3, 4] } ],
      tags := some [("type", "multipolygon"), ("boundary", "administrative")] }
    [ { type := "way", ref := 100, role := "outer", nodes := some [1, 2] },
      { type := "way", ref := 101, role := "outer", nodes := some [3, 4] } ]
    rfl (by decide) (by decide) (by decide) (by decide) (by decide)).1
  simpa using h

/-- The `evictOldest` scan, fed an already-seen candidate `(k, t)`, returns a
candidate no later than `t`, drawn from the seen candidate or the list, and
no later than any entry of the list. -/
theorem foldl_oldestStep_spec (l : CacheTable α) :
    ∀ (k : String) (t : Nat),
      ∃ k' t', l.foldl oldestStep (some (k, t)) = some (k', t') ∧ t' ≤ t ∧
        ((k' = k ∧ t' = t) ∨ ∃ e, (k', e) ∈ l ∧ e.lastAccessed = t') ∧
        ∀ p ∈ l, t' ≤ p.2.lastAccessed := by
  induction l with
  | nil =>
    intro k t
    exact ⟨k, t, rfl, le_refl _, Or.inl ⟨rfl, rfl⟩, by simp⟩
  | cons p rest ih =>
    intro k t
    by_cases hlt : p.2.lastAccessed < t
    · have step : oldestStep (some (k, t)) p = some (p.1, p.2.lastAccessed) := by
        simp [oldestStep, hlt]
      obtain ⟨k', t', heq, hle, hsrc, hall⟩ := ih p.1 p.2.lastAccessed
      refine ⟨k', t', by simpa [step] using heq, by omega, ?_, ?_⟩
      · rcases hsrc with ⟨hk, ht⟩ | ⟨e, he, hla⟩
        · exact Or.inr ⟨p.2, by simp [hk, Prod.ext_iff], by omega⟩
        · exact Or.inr ⟨e, List.mem_cons_of_mem _ he, hla⟩
      · intro q hq
        rcases List.mem_cons.mp hq with hqp | hqr
        · rw [hqp]; omega
        · exact hall q hqr
    · have step : oldestStep (some (k, t)) p = some (k, t) := by
        simp [oldestStep, hlt]
      obtain ⟨k', t', heq, hle, hsrc, hall⟩ := ih k t
      refine ⟨k', t', by simpa [step] using heq, hle, ?_, ?_⟩
      · rcases hsrc with hkt | ⟨e, he, hla⟩
        · exact Or.inl hkt
        · exact Or.inr ⟨e, List.mem_cons_of_mem _ he, hla⟩
      · intro q hq
        rcases List.mem_cons.mp hq with hqp | hqr
        · rw [hqp]; omega
        · exact hall q hqr

/-- On a non-empty table, `findOldest` returns the key of an entry of minimal
`lastAccessed`. -/
theorem findOldest_spec (l : CacheTable α) (hl : l ≠ []) :
    ∃ k t, findOldest l = some (k, t) ∧
      (∃ e, (k, e) ∈ l ∧ e.lastAccessed = t) ∧
      ∀ p ∈ l, t ≤ p.2.lastAccessed := by
  rcases l with _ | ⟨p, rest⟩
  · exact absurd rfl hl
  · obtain ⟨k', t', heq, hle, hsrc, hall⟩ := foldl_oldestStep_spec rest p.1 p.2.lastAccessed
    refine ⟨k', t', ?_, ?_, ?_⟩
    · simpa [findOldest, oldestStep] using heq
    · rcases hsrc with ⟨hk, ht⟩ | ⟨e, he, hla⟩
      · exact ⟨p.2, by simp [hk, Prod.ext_iff], by omega⟩
      · exact ⟨e, List.mem_cons_of_mem _ he, hla⟩
    · intro q hq
      rcases List.mem_cons.mp hq with hqp | hqr
      · rw [hqp]; omega
      · exact hall q hqr

/-- Deleting a key that is present strictly shrinks the table. -/
theorem length_mapDelete_lt (l : CacheTable α) (k : String) (e : CacheEntry α)
    (h : (k, e) ∈ l) : (mapDelete l k).length < l.length := by
  induction l with
  | nil => cases h
  | cons p rest ih =>
    by_cases hk : p.1 = k
    · have hdrop : mapDelete (p :: rest) k = mapDelete rest k := by
        simp [mapDelete, List.filter_cons, hk]
      have hrest : (mapDelete rest k).length ≤ rest.length :=
        List.length_filter_le _ rest
      rw [hdrop]
      simp only [List.length_cons]
      omega
    · have hkeep : mapDelete (p :: rest) k = p :: mapDelete rest k := by
        simp [mapDelete, List.filter_cons, hk]
      have hmem : (k, e) ∈ rest := by
        rcases List.mem_cons.mp h with hp | hm
        · exact absurd (by rw [← hp]) hk
        · exact hm
      have := ih hmem
      rw [hkeep]
      simp only [List.length_cons]
      omega

/-- A key absent from a table is absent from any delete of it. -/
theorem mapHas_mapDelete_false (l : CacheTable α) (k k0 : String)
    (h : mapHas l k = false) : mapHas (mapDelete l k0) k = false := by
  by_contra hc
  have hc' : mapHas (mapDelete l k0) k = true := by
    revert hc; cases mapHas (mapDelete l k0) k <;> simp
  obtain ⟨p, hp, hpk⟩ := List.any_eq_true.mp hc'
  have hpl : p ∈ l := List.mem_of_mem_filter hp
  have : mapHas l k = true := List.any_eq_true.mpr ⟨p, hpl, hpk⟩
  rw [h] at this
  cases this

/-- Overwriting a present key preserves the table length. -/
theorem length_mapSet_of_has (l : CacheTable α) (k : String) (e : CacheEntry α)
    (h : mapHas l k = true) : (mapSet l k e).length = l.length := by
  simp [mapSet, h]

/-- Inserting an absent key grows the table by one. -/
theorem length_mapSet_of_not_has (l : CacheTable α) (k : String) (e : CacheEntry α)
    (h : mapHas l k = false) : (mapSet l k e).length = l.length + 1 := by
  simp [mapSet, h]

/-- `evictOldest` does not touch the configured capacity. -/
theorem evictOldest_maxSize (c : QueryCache α) :
    (evictOldest c).maxSize = c.maxSize := by
  unfold evictOldest
  split <;> rfl

/-- `set` does not touch the configured capacity. -/
theorem cacheSet_maxSize (c : QueryCache α) (q : String) (d : α) (now : Nat) :
    (cacheSet c q d now).maxSize = c.maxSize := by
  unfold cacheSet
  dsimp only
  split
  · exact evictOldest_maxSize c
  · rfl

/-- One `set` keeps the table within the configured capacity. -/
theorem cacheSet_entries_length_le (c : QueryCache α) (q : String) (d : α)
    (now : Nat) (hmax : 1 ≤ c.maxSize) (h : c.entries.length ≤ c.maxSize) :
    (cacheSet c q d now).entries.length ≤ c.maxSize := by
  by_cases hhas : mapHas c.entries (generateKey q) = true
  · have hcond : ¬ (c.entries.length ≥ c.maxSize ∧
        ¬ mapHas c.entries (generateKey q) = true) := fun hc => hc.2 hhas
    simp only [cacheSet, if_neg hcond]
    rw [length_mapSet_of_has _ _ _ hhas]
    exact h
  · have hhas' : mapHas c.entries (generateKey q) = false := by
      revert hhas; cases mapHas c.entries (generateKey q) <;> simp
    by_cases hcap : c.entries.length ≥ c.maxSize
    · have hcond : c.entries.length ≥ c.maxSize ∧
          ¬ mapHas c.entries (generateKey q) = true := ⟨hcap, hhas⟩
      have hne : c.entries ≠ [] := by
        intro he
        rw [he] at hcap
        simp at hcap
        omega
      obtain ⟨k0, t0, hfo, ⟨e0, hmem, _⟩, _⟩ := findOldest_spec c.entries hne
      have hdel : (mapDelete c.entries k0).length < c.entries.length :=
        length_mapDelete_lt _ _ _ hmem
      have hhasdel : mapHas (mapDelete c.entries k0) (generateKey q) = false :=
        mapHas_mapDelete_false _ _ _ hhas'
      simp only [cacheSet, if_pos hcond, evictOldest, hfo]
      rw [length_mapSet_of_not_has _ _ _ hhasdel]
      omega
    · have hcond : ¬ (c.entries.length ≥ c.maxSize ∧
          ¬ mapHas c.entries (generateKey q) = true) := fun hc => hcap hc.1
      simp only [cacheSet, if_neg hcond]
      rw [length_mapSet_of_not_has _ _ _ hhas']
      omega

/-- C3: Capacity invariant and eviction policy of the cache: any
sequence of `set` operations keeps the resident entry count within the
configured capacity; a `set` of a new key at capacity evicts exactly one
entry, one of minimal `lastAccessed`, before appending the new entry; a
`set` on a present key overwrites it in place with no eviction. -/
theorem cache_capacity_and_lru_eviction (α : Type) :
    (∀ (c : QueryCache α) (ops : List (String × α × Nat)),
        1 ≤ c.maxSize → c.entries.length ≤ c.maxSize →
        (applySets c ops).entries.length ≤ c.maxSize)
    ∧ (∀ (c : QueryCache α) (q : String) (d : α) (now : Nat),
        mapHas c.entries (generateKey q) = false →
        c.maxSize ≤ c.entries.length → c.entries ≠ [] →
        ∃ kmin emin, (kmin, emin) ∈ c.entries ∧
          (∀ p ∈ c.entries, emin.lastAccessed ≤ p.2.lastAccessed) ∧
          (cacheSet c q d now).entries =
            mapDelete c.entries kmin ++
              [(generateKey q, { data := d, timestamp := now, lastAccessed := now })])
    ∧ (∀ (c : QueryCache α) (q : String) (d : α) (now : Nat),
        mapHas c.entries (generateKey q) = true →
        (cacheSet c q d now).entries =
          c.entries.map
            (fun p => if p.1 = generateKey q
              then (generateKey q, { data := d, timestamp := now, lastAccessed := now })
              else p)) := by
  refine ⟨?_, ?_, ?_⟩
  · intro c ops
    induction ops generalizing c with
    | nil => intro _ h; exact h
    | cons op rest ih =>
      intro hmax h
      have hstep := cacheSet_entries_length_le c op.1 op.2.1 op.2.2 hmax h
      have hms := cacheSet_maxSize c op.1 op.2.1 op.2.2
      have := ih (cacheSet c op.1 op.2.1 op.2.2)
        (by rw [hms]; exact hmax) (by rw [hms]; exact hstep)
      rw [hms] at this
      simpa [applySets, List.foldl_cons] using this
  · intro c q d now hhas hcap hne
    obtain ⟨k0, t0, hfo, ⟨e0, hmem, hla⟩, hmin⟩ := findOldest_spec c.entries hne
    have hhasq : ¬ mapHas c.entries (generateKey q) = true := by
      rw [hhas]; exact Bool.false_ne_true
    have hcond : c.entries.length ≥ c.maxSize ∧
        ¬ mapHas c.entries (generateKey q) = true := ⟨hcap, hhasq⟩
    have hhasdel : mapHas (mapDelete c.entries k0) (generateKey q) = false :=
      mapHas_mapDelete_false _ _ _ hhas
    refine ⟨k0, e0, hmem, ?_, ?_⟩
    · intro p hp
      rw [hla]
      exact hmin p hp
    · simp only [cacheSet, if_pos hcond, evictOldest, hfo]
      simp [mapSet, hhasdel]
  · intro c q d now hhas
    have hcond : ¬ (c.entries.length ≥ c.maxSize ∧
        ¬ mapHas c.entries (generateKey q) = true) := fun hc => hc.2 hhas
    simp only [cacheSet, if_neg hcond]
    simp [mapSet, hhas]

/-- C3 witness: the eviction scenario at a concrete two-entry cache at
capacity (`"a"` accessed at 0, `"b"` at 1): the capacity bound holds after a
burst of inserts, and inserting `"c"` evicts the least-recently-accessed
entry, via `cache_capacity_and_lru_eviction`. -/
theorem cache_capacity_and_lru_eviction_witness :
    (applySets { entries := [], maxSize := 2, ttl := 10 }
        [("a", (1 : Nat), 0), ("b", 2, 1), ("c", 3, 2), ("d", 4, 3)]).entries.length ≤ 2
    ∧ ∃ kmin emin,
        (kmin, emin) ∈
          ([("a", { data := (1 : Nat), timestamp := 0, lastAccessed := 0 }),
            ("b", { data := 2, timestamp := 1, lastAccessed := 1 })] : CacheTable Nat) ∧
        (∀ p ∈ ([("a", { data := (1 : Nat), timestamp := 0, lastAccessed := 0 }),
            ("b", { data := 2, timestamp := 1, lastAccessed := 1 })] : CacheTable Nat),
          emin.lastAccessed ≤ p.2.lastAccessed) ∧
        (cacheSet
          { entries :=
              [("a", { data := (1 : Nat), timestamp := 0, lastAccessed := 0 }),
               ("b", { data := 2, timestamp := 1, lastAccessed := 1 })],
            maxSize := 2, ttl := 10 } "c" 3 2).entries =
          mapDelete
            [("a", { data := (1 : Nat), timestamp := 0, lastAccessed := 0 }),
             ("b", { data := 2, timestamp := 1, lastAccessed := 1 })] kmin ++
            [("c", { data := 3, timestamp := 2, lastAccessed := 2 })] := by
  constructor
  · exact (cache_capacity_and_lru_eviction Nat).1
      { entries := [], maxSize := 2, ttl := 10 }
      [("a", 1, 0), ("b", 2, 1), ("c", 3, 2), ("d", 4, 3)]
      (by decide) (by decide)
  · exact (cache_capacity_and_lru_eviction Nat).2.1
      { entries :=
          [("a", { data := 1, timestamp := 0, lastAccessed := 0 }),
           ("b", { data := 2, timestamp := 1, lastAccessed := 1 })],
        maxSize := 2, ttl := 10 } "c" 3 2
      (by decide) (by decide) (by decide)

/-- A successful lookup implies key presence. -/
theorem mapHas_of_mapGet_some (m : CacheTable α) (k : String) (e : CacheEntry α)
    (h : mapGet m k = some e) : mapHas m k = true := by
  induction m with
  | nil => simp [mapGet] at h
  | cons p rest ih =>
    by_cases hk : p.1 = k
    · simp [mapHas, hk]
    · have h' : mapGet rest k = some e := by
        simpa [mapGet, List.find?_cons, hk] using h
      have hrest := ih h'
      simp only [mapHas, List.any_cons, Bool.or_eq_true]
      exact Or.inr hrest

/-- Looking up `k` after an in-place overwrite of `k` yields the new entry. -/
theorem mapGet_map_replace (m : CacheTable α) (k : String) (e : CacheEntry α)
    (hhas : mapHas m k = true) :
    mapGet (m.map (fun p => if p.1 = k then (k, e) else p)) k = some e := by
  induction m with
  | nil => simp [mapHas] at hhas
  | cons p rest ih =>
    by_cases hk : p.1 = k
    · simp [mapGet, List.find?_cons, hk]
    · have hhas' : mapHas rest k = true := by
        simpa [mapHas, List.any_cons, hk] using hhas
      simpa [mapGet, List.find?_cons, hk] using ih hhas'

/-- `mapSet` on a present key makes lookup return the new entry. -/
theorem mapGet_mapSet_self (m : CacheTable α) (k : String) (e : CacheEntry α)
    (hhas : mapHas m k = true) : mapGet (mapSet m k e) k = some e := by
  simp only [mapSet, if_pos hhas]
  exact mapGet_map_replace m k e hhas

/-- Lookup after deletion of the same key fails. -/
theorem mapGet_mapDelete_self (m : CacheTable α) (k : String) :
    mapGet (mapDelete m k) k = none := by
  simp only [mapGet, Option.map_eq_none']
  rw [List.find?_eq_none]
  intro p hp
  have := List.of_mem_filter hp
  simpa using this

/-- C4: TTL is enforced at lookup time: a `get` finding an entry whose
age exceeds the TTL returns absent and deletes the entry, in whatever state
the table is (sweep or no sweep); a `get` finding a live entry returns its
data and updates its `lastAccessedAt` to the lookup clock. -/
theorem cache_ttl_lookup_enforcement (α : Type) :
    (∀ (c : QueryCache α) (q : String) (now : Nat) (e : CacheEntry α),
        mapGet c.entries (generateKey q) = some e →
        c.ttl < now - e.timestamp →
        (cacheGet c q now).1 = none
        ∧ (cacheGet c q now).2.entries = mapDelete c.entries (generateKey q)
        ∧ mapGet (cacheGet c q now).2.entries (generateKey q) = none)
    ∧ (∀ (c : QueryCache α) (q : String) (now : Nat) (e : CacheEntry α),
        mapGet c.entries (generateKey q) = some e →
        ¬ c.ttl < now - e.timestamp →
        (cacheGet c q now).1 = some e.data
        ∧ mapGet (cacheGet c q now).2.entries (generateKey q) =
            some { e with lastAccessed := now }) := by
  constructor
  · intro c q now e hget hexp
    have h1 : cacheGet c q now =
        (none, { c with entries := mapDelete c.entries (generateKey q) }) := by
      simp [cacheGet, hget, hexp]
    rw [h1]
    exact ⟨rfl, rfl, mapGet_mapDelete_self _ _⟩
  · intro c q now e hget hlive
    have hhas : mapHas c.entries (generateKey q) = true :=
      mapHas_of_mapGet_some _ _ _ hget
    have h1 : cacheGet c q now =
        (some e.data,
         { c with entries :=
             mapSet c.entries (generateKey q) { e with lastAccessed := now } }) := by
      simp [cacheGet, hget, hlive]
    rw [h1]
    exact ⟨rfl, mapGet_mapSet_self _ _ _ hhas⟩

/-- C4 witness: a concrete entry inserted at time 0 with TTL 10 is absent
(and deleted) at a lookup at time 11, and still served with an updated
`lastAccessed` at a lookup at time 10, via `cache_ttl_lookup_enforcement`. -/
theorem cache_ttl_lookup_enforcement_witness :
    ((cacheGet
        { entries := [("a", { data := (5 : Nat), timestamp := 0, lastAccessed := 0 })],
          maxSize := 100, ttl := 10 } "a" 11).1 = none
      ∧ (cacheGet
        { entries := [("a", { data := (5 : Nat), timestamp := 0, lastAccessed := 0 })],
          maxSize := 100, ttl := 10 } "a" 11).2.entries =
          mapDelete [("a", { data := (5 : Nat), timestamp := 0, lastAccessed := 0 })] "a"
      ∧ mapGet (cacheGet
        { entries := [("a", { data := (5 : Nat), timestamp := 0, lastAccessed := 0 })],
          maxSize := 100, ttl := 10 } "a" 11).2.entries "a" = none)
    ∧ ((cacheGet
        { entries := [("a", { data := (5 : Nat), timestamp := 0, lastAccessed := 0 })],
          maxSize := 100, ttl := 10 } "a" 10).1 = some 5
      ∧ mapGet (cacheGet
        { entries := [("a", { data := (5 : Nat), timestamp := 0, lastAccessed := 0 })],
          maxSize := 100, ttl := 10 } "a" 10).2.entries "a" =
          some { data := (5 : Nat), timestamp := 0, lastAccessed := 10 }) :=
  ⟨(cache_ttl_lookup_enforcement Nat).1
      { entries := [("a", { data := 5, timestamp := 0, lastAccessed := 0 })],
        maxSize := 100, ttl := 10 } "a" 11
      { data := 5, timestamp := 0, lastAccessed := 0 } (by decide) (by decide),
   (cache_ttl_lookup_enforcement Nat).2
      { entries := [("a", { data := 5, timestamp := 0, lastAccessed := 0 })],
        maxSize := 100, ttl := 10 } "a" 10
      { data := 5, timestamp := 0, lastAccessed := 0 } (by decide) (by decide)⟩

/-- The attempt order has one entry per server. -/
theorem visitOrder_length (n cur : Nat) : (visitOrder n cur).length = n := by
  simp [visitOrder]

/-- With a valid cursor, the attempt order starts at the cursor. -/
theorem visitOrder_head? (n cur : Nat) (h : cur < n) :
    (visitOrder n cur).head? = some cur := by
  rcases n with _ | m
  · omega
  · rw [visitOrder, List.range_succ_eq_map]
    simp [Nat.mod_eq_of_lt h]

/-- The attempt order has no repeated server index. -/
theorem visitOrder_nodup (n cur : Nat) : (visitOrder n cur).Nodup := by
  rcases Nat.eq_zero_or_pos n with h0 | hpos
  · simp [visitOrder, h0]
  · refine List.Nodup.map_on ?_ (List.nodup_range n)
    intro i hi j hj hij
    rw [List.mem_range] at hi hj
    have hmod : i % n = j % n := Nat.ModEq.add_left_cancel' cur hij
    rw [Nat.mod_eq_of_lt hi, Nat.mod_eq_of_lt hj] at hmod
    exact hmod

/-- The attempt order visits exactly the valid server indices. -/
theorem visitOrder_mem (n cur : Nat) (hn : 0 < n) :
    ∀ j, j ∈ visitOrder n cur ↔ j < n := by
  have hsub : visitOrder n cur ⊆ List.range n := by
    intro x hx
    obtain ⟨i, _, rfl⟩ := List.mem_map.mp hx
    exact List.mem_range.mpr (Nat.mod_lt _ hn)
  have hsp := List.subperm_of_subset (visitOrder_nodup n cur) hsub
  have hperm : List.Perm (visitOrder n cur) (List.range n) :=
    hsp.perm_of_length_le (by rw [visitOrder_length, List.length_range])
  intro j
  rw [hperm.mem_iff, List.mem_range]

/-- When every endpoint fails, the loop walks the whole counter list,
accumulates one classified sleep per failure, keeps the entry cursor, and
aggregates a single error around the message of the last attempt (or the
inherited last error when no counters remain). -/
theorem queryGo_all_fail (n cur : Nat) (net : Nat → AttemptOutcome α)
    (msgs : Nat → String) (hnet : ∀ idx, net idx = .failure (msgs idx)) :
    ∀ (l : List Nat) (lastError : Option String),
      queryGo n cur net l lastError =
        { result := .error ("All servers failed. Last error: " ++
            (match l.getLast? with
             | some i => msgs ((cur + i) % n)
             | none => jsOptMessage lastError))
          currentServerIndex := cur
          attempted := l.map (fun i => (cur + i) % n)
          sleeps := l.map (fun i => backoffDelay i (msgs ((cur + i) % n))) } := by
  intro l
  induction l with
  | nil =>
    intro lastError
    simp [queryGo]
  | cons i rest ih =>
    intro lastError
    simp only [queryGo, hnet ((cur + i) % n), ih (some (msgs ((cur + i) % n)))]
    rcases rest with _ | ⟨j, t⟩
    · simp [jsOptMessage]
    · have hne : (j :: t) ≠ [] := by simp
      obtain ⟨x, hx⟩ := Option.isSome_iff_exists.mp (List.getLast?_isSome.mpr hne)
      simp [hx, List.getLast?_cons_cons]

/-- When the counters start with a run of failures followed by a success, the
loop returns that success, sets the cursor to the succeeding index, and the
attempted indices are the failed prefix followed by the succeeding index. -/
theorem queryGo_first_success (n cur : Nat) (net : Nat → AttemptOutcome α)
    (r : α) (pre post : List Nat) (k : Nat) :
    ∀ (lastError : Option String),
      (∀ i ∈ pre, ∃ m, net ((cur + i) % n) = .failure m) →
      net ((cur + k) % n) = .success r →
      (queryGo n cur net (pre ++ k :: post) lastError).result = .ok r
      ∧ (queryGo n cur net (pre ++ k :: post) lastError).currentServerIndex =
          (cur + k) % n
      ∧ (queryGo n cur net (pre ++ k :: post) lastError).attempted =
          (pre ++ [k]).map (fun i => (cur + i) % n) := by
  induction pre with
  | nil =>
    intro lastError _ hk
    simp [queryGo, hk]
  | cons p pre' ih =>
    intro lastError hpre hk
    obtain ⟨m, hm⟩ := hpre p (by simp)
    have ih' := ih (some m) (fun i hi => hpre i (by simp [hi])) hk
    rw [List.cons_append, queryGo, hm]
    exact ⟨ih'.1, ih'.2.1, by simp [ih'.2.2]⟩

/-- A bypassing call whose retry loop succeeds returns the loop's response and
adopts the loop's cursor; the cache is untouched. -/
theorem clientQuery_bypass_ok (st : ClientState α) (q : String) (now : Nat)
    (net : Nat → AttemptOutcome α) (r : α)
    (h : (runQuery st.servers.length st.currentServerIndex net).result = .ok r) :
    clientQuery st q true now net =
      { result := .ok r
        state := { st with currentServerIndex :=
            (runQuery st.servers.length st.currentServerIndex net).currentServerIndex }
        attempted := (runQuery st.servers.length st.currentServerIndex net).attempted
        sleeps := (runQuery st.servers.length st.currentServerIndex net).sleeps } := by
  simp [clientQuery, h]

/-- A bypassing call whose retry loop exhausts every server surfaces exactly
the loop's aggregated error and leaves the client state unchanged. -/
theorem clientQuery_bypass_error (st : ClientState α) (q : String) (now : Nat)
    (net : Nat → AttemptOutcome α) (e : String)
    (h : (runQuery st.servers.length st.currentServerIndex net).result = .error e) :
    clientQuery st q true now net =
      { result := .error e
        state := st
        attempted := (runQuery st.servers.length st.currentServerIndex net).attempted
        sleeps := (runQuery st.servers.length st.currentServerIndex net).sleeps } := by
  simp [clientQuery, h]

/-- The last loop counter of a call over `n ≥ 1` servers is `n - 1`. -/
theorem range_getLast? (n : Nat) (h : 1 ≤ n) :
    (List.range n).getLast? = some (n - 1) := by
  rcases n with _ | m
  · omega
  · rw [List.range_succ, List.getLast?_concat]
    simp

/-- C5: The per-call attempt sequence has length equal to the pool size,
visits each server index exactly once, starts at the current preferred index
and wraps around; and in the failover scenario (first endpoint fails, second
succeeds) the call returns the second endpoint's value, records it as
preferred, attempted exactly those two endpoints in order, and a subsequent
call attempts the succeeding endpoint first. -/
theorem endpoint_rotation_and_failover (α : Type) :
    (∀ n cur : Nat, cur < n →
        (visitOrder n cur).length = n
        ∧ (visitOrder n cur).head? = some cur
        ∧ (visitOrder n cur).Nodup
        ∧ ∀ j, j ∈ visitOrder n cur ↔ j < n)
    ∧ (∀ (st : ClientState α) (q : String) (now : Nat)
          (net : Nat → AttemptOutcome α) (msg : String) (r : α),
        2 ≤ st.servers.length →
        st.currentServerIndex < st.servers.length →
        net st.currentServerIndex = .failure msg →
        net ((st.currentServerIndex + 1) % st.servers.length) = .success r →
        (clientQuery st q true now net).result = .ok r
        ∧ (clientQuery st q true now net).state.currentServerIndex =
            (st.currentServerIndex + 1) % st.servers.length
        ∧ (clientQuery st q true now net).attempted =
            [st.currentServerIndex, (st.currentServerIndex + 1) % st.servers.length]
        ∧ (visitOrder st.servers.length
              ((st.currentServerIndex + 1) % st.servers.length)).head? =
            some ((st.currentServerIndex + 1) % st.servers.length))
    ∧ (∀ (st : ClientState α) (q : String) (now : Nat)
          (net : Nat → AttemptOutcome α) (r : α) (pre post : List Nat) (k : Nat),
        List.range st.servers.length = pre ++ k :: post →
        (∀ i ∈ pre, ∃ m,
          net ((st.currentServerIndex + i) % st.servers.length) = .failure m) →
        net ((st.currentServerIndex + k) % st.servers.length) = .success r →
        (clientQuery st q true now net).result = .ok r
        ∧ (clientQuery st q true now net).state.currentServerIndex =
            (st.currentServerIndex + k) % st.servers.length) := by
  refine ⟨?_, ?_, ?_⟩
  case refine_3 =>
    intro st q now net r pre post k hsplit hpre hk
    have hrun := queryGo_first_success st.servers.length st.currentServerIndex
      net r pre post k none hpre hk
    rw [← hsplit] at hrun
    have hrq : runQuery st.servers.length st.currentServerIndex net =
        queryGo st.servers.length st.currentServerIndex net
          (List.range st.servers.length) none := rfl
    have hrun1 : (runQuery st.servers.length st.currentServerIndex net).result =
        .ok r := by rw [hrq]; exact hrun.1
    have hrun2 : (runQuery st.servers.length st.currentServerIndex net).currentServerIndex =
        (st.currentServerIndex + k) % st.servers.length := by
      rw [hrq]; exact hrun.2.1
    have hcq := clientQuery_bypass_ok st q now net r hrun1
    exact ⟨by rw [hcq], by rw [hcq]; exact hrun2⟩
  · intro n cur h
    exact ⟨visitOrder_length n cur, visitOrder_head? n cur h,
      visitOrder_nodup n cur, visitOrder_mem n cur (by omega)⟩
  · intro st q now net msg r hn hcur hfail hsucc
    obtain ⟨k, hk⟩ : ∃ k, st.servers.length = k + 2 :=
      ⟨st.servers.length - 2, by omega⟩
    have hrange : List.range st.servers.length =
        [0] ++ 1 :: (List.range k).map (Nat.succ ∘ Nat.succ) := by
      rw [hk, List.range_succ_eq_map, List.range_succ_eq_map]
      simp [List.map_map]
    have hfail' : ∀ i ∈ [0], ∃ m,
        net ((st.currentServerIndex + i) % st.servers.length) = .failure m := by
      intro i hi
      rw [List.mem_singleton.mp hi]
      exact ⟨msg, by simpa [Nat.mod_eq_of_lt hcur] using hfail⟩
    have hrun := queryGo_first_success st.servers.length st.currentServerIndex
      net r [0] ((List.range k).map (Nat.succ ∘ Nat.succ)) 1 none hfail' hsucc
    rw [← hrange] at hrun
    have hrq : runQuery st.servers.length st.currentServerIndex net =
        queryGo st.servers.length st.currentServerIndex net
          (List.range st.servers.length) none := rfl
    have hrun1 : (runQuery st.servers.length st.currentServerIndex net).result =
        .ok r := by rw [hrq]; exact hrun.1
    have hrun2 : (runQuery st.servers.length st.currentServerIndex net).currentServerIndex =
        (st.currentServerIndex + 1) % st.servers.length := by
      rw [hrq]; exact hrun.2.1
    have hrun3 : (runQuery st.servers.length st.currentServerIndex net).attempted =
        [st.currentServerIndex, (st.currentServerIndex + 1) % st.servers.length] := by
      rw [hrq, hrun.2.2]
      simp [Nat.mod_eq_of_lt hcur]
    have hcq := clientQuery_bypass_ok st q now net r hrun1
    exact ⟨by rw [hcq], by rw [hcq]; exact hrun2, by rw [hcq]; exact hrun3,
      visitOrder_head? _ _ (Nat.mod_lt _ (by omega))⟩

/-- C5 witness: a concrete two-server pool starting at index 0 whose
first server fails and second succeeds, via
`endpoint_rotation_and_failover`. -/
theorem endpoint_rotation_and_failover_witness :
    (clientQuery (α := Nat)
        { servers := [{ url := "https://a", host := "a.example" },
                      { url := "https://b", host := "b.example" }],
          currentServerIndex := 0,
          cache := { entries := [], maxSize := 100, ttl := 10 } }
        "q" true 0
        (fun i => if i = 0 then .failure "boom" else .success 42)).result = .ok 42
    ∧ (clientQuery (α := Nat)
        { servers := [{ url := "https://a", host := "a.example" },
                      { url := "https://b", host := "b.example" }],
          currentServerIndex := 0,
          cache := { entries := [], maxSize := 100, ttl := 10 } }
        "q" true 0
        (fun i => if i = 0 then .failure "boom" else .success 42)).state.currentServerIndex = 1
    ∧ (clientQuery (α := Nat)
        { servers := [{ url := "https://a", host := "a.example" },
                      { url := "https://b", host := "b.example" }],
          currentServerIndex := 0,
          cache := { entries := [], maxSize := 100, ttl := 10 } }
        "q" true 0
        (fun i => if i = 0 then .failure "boom" else .success 42)).attempted = [0, 1] := by
  have h := (endpoint_rotation_and_failover Nat).2.1
    { servers := [{ url := "https://a", host := "a.example" },
                  { url := "https://b", host := "b.example" }],
      currentServerIndex := 0,
      cache := { entries := [], maxSize := 100, ttl := 10 } }
    "q" 0 (fun i => if i = 0 then .failure "boom" else .success 42) "boom" 42
    (by decide) (by decide) (by decide) (by decide)
  exact ⟨h.1, h.2.1, h.2.2.1⟩

/-- C9: When every endpoint fails for one call, the caller receives
exactly one aggregated error carrying the failure message of the last
endpoint tried; the client state is unchanged (earlier per-endpoint failures
are absorbed by the loop and never surfaced). -/
theorem exhausted_error_aggregation (α : Type) :
    ∀ (st : ClientState α) (q : String) (now : Nat)
      (net : Nat → AttemptOutcome α) (msgs : Nat → String),
      (∀ idx, net idx = .failure (msgs idx)) →
      1 ≤ st.servers.length →
      (clientQuery st q true now net).result =
        .error ("All servers failed. Last error: " ++
          msgs ((st.currentServerIndex + (st.servers.length - 1)) % st.servers.length))
      ∧ (clientQuery st q true now net).state = st
      ∧ (clientQuery st q true now net).attempted =
          visitOrder st.servers.length st.currentServerIndex := by
  intro st q now net msgs hnet hn
  have hrun := queryGo_all_fail st.servers.length st.currentServerIndex net msgs
    hnet (List.range st.servers.length) none
  have hgl := range_getLast? st.servers.length hn
  have hrq : runQuery st.servers.length st.currentServerIndex net =
      queryGo st.servers.length st.currentServerIndex net
        (List.range st.servers.length) none := rfl
  have hres : (runQuery st.servers.length st.currentServerIndex net).result =
      .error ("All servers failed. Last error: " ++
        msgs ((st.currentServerIndex + (st.servers.length - 1)) % st.servers.length)) := by
    rw [hrq, hrun]
    simp [hgl]
  have hatt : (runQuery st.servers.length st.currentServerIndex net).attempted =
      visitOrder st.servers.length st.currentServerIndex := by
    rw [hrq, hrun]
    rfl
  have hcq := clientQuery_bypass_error st q now net _ hres
  exact ⟨by rw [hcq], by rw [hcq], by rw [hcq]; exact hatt⟩

/-- C9 witness: a concrete two-server pool where both servers fail; the
call surfaces one aggregated error naming the last server's failure and
leaves the state unchanged, via `exhausted_error_aggregation`. -/
theorem exhausted_error_aggregation_witness :
    (clientQuery (α := Nat)
        { servers := [{ url := "https://a", host := "a.example" },
                      { url := "https://b", host := "b.example" }],
          currentServerIndex := 0,
          cache := { entries := [], maxSize := 100, ttl := 10 } }
        "q" true 0
        (fun i => .failure (if i = 0 then "first down" else "second down"))).result =
      .error "All servers failed. Last error: second down"
    ∧ (clientQuery (α := Nat)
        { servers := [{ url := "https://a", host := "a.example" },
                      { url := "https://b", host := "b.example" }],
          currentServerIndex := 0,
          cache := { entries := [], maxSize := 100, ttl := 10 } }
        "q" true 0
        (fun i => .failure (if i = 0 then "first down" else "second down"))).state =
      { servers := [{ url := "https://a", host := "a.example" },
                    { url := "https://b", host := "b.example" }],
        currentServerIndex := 0,
        cache := { entries := [], maxSize := 100, ttl := 10 } } := by
  have h := exhausted_error_aggregation Nat
    { servers := [{ url := "https://a", host := "a.example" },
                  { url := "https://b", host := "b.example" }],
      currentServerIndex := 0,
      cache := { entries := [], maxSize := 100, ttl := 10 } }
    "q" 0 (fun i => .failure (if i = 0 then "first down" else "second down"))
    (fun i => if i = 0 then "first down" else "second down")
    (fun _ => rfl) (by decide)
  exact ⟨h.1.trans rfl, h.2.1⟩

/-- C6 counterexample: The claim says every transient server error
(HTTP 5xx) sleeps a short fixed delay before the next endpoint.  HTTP 504 is
a 5xx status, yet its failure message carries none of the substrings the code
tests for (`429`, `500`, `502`, `503`), so the computed delay is 0, not the
fixed 2000 ms. -/
theorem backoff_5xx_counterexample :
    (500 ≤ 504 ∧ 504 ≤ 599)
    ∧ httpsRequestOutcome (α := Nat) 504 "Gateway Timeout" (.error "x") =
        .failure "HTTP 504: Gateway Timeout"
    ∧ backoffDelay 0 "HTTP 504: Gateway Timeout" = 0
    ∧ (0 : Nat) ≠ 2000 := by
  exact ⟨⟨by decide, by decide⟩, by decide, by decide, by decide⟩

/-- C6 amended: Delays are classified by substring matching on the
failure message, not by error class: a message containing `429` sleeps
`min (5000 · 2^attemptIndex) 30000`; otherwise a message containing `500`,
`502` or `503` (so not every 5xx status) sleeps a fixed 2000 ms; any other
failure message — including a 200 response with unparseable body — proceeds
immediately with no delay.  A non-200 status `s` produces the message
`HTTP s: body`, and within one call each failed attempt contributes exactly
its classified delay. -/
theorem backoff_by_message_class (α : Type) :
    (∀ (i : Nat) (msg : String), jsIncludes msg "429" = true →
        backoffDelay i msg = min (5000 * 2 ^ i) 30000)
    ∧ (∀ (i : Nat) (msg : String), jsIncludes msg "429" = false →
        (jsIncludes msg "500" || jsIncludes msg "502" || jsIncludes msg "503") = true →
        backoffDelay i msg = 2000)
    ∧ (∀ (i : Nat) (msg : String), jsIncludes msg "429" = false →
        (jsIncludes msg "500" || jsIncludes msg "502" || jsIncludes msg "503") = false →
        backoffDelay i msg = 0)
    ∧ (∀ (statusCode : Nat) (body : String) (p : ParseResult α), ¬ statusCode = 200 →
        httpsRequestOutcome statusCode body p =
          .failure ("HTTP " ++ toString statusCode ++ ": " ++ body.take 200))
    ∧ (∀ (n cur : Nat) (net : Nat → AttemptOutcome α) (msgs : Nat → String),
        (∀ idx, net idx = .failure (msgs idx)) →
        (runQuery n cur net).sleeps =
          (List.range n).map (fun i => backoffDelay i (msgs ((cur + i) % n)))) := by
  refine ⟨?_, ?_, ?_, ?_, ?_⟩
  · intro i msg h
    simp [backoffDelay, h]
  · intro i msg h429 h5xx
    simp [backoffDelay, h429, h5xx]
  · intro i msg h429 h5xx
    rw [Bool.or_eq_false_iff, Bool.or_eq_false_iff] at h5xx
    simp [backoffDelay, h429, h5xx.1.1, h5xx.1.2, h5xx.2]
  · intro statusCode body p h
    simp [httpsRequestOutcome, h]
  · intro n cur net msgs hnet
    have hrun := queryGo_all_fail n cur net msgs hnet (List.range n) none
    have hrq : runQuery n cur net =
        queryGo n cur net (List.range n) none := rfl
    rw [hrq, hrun]

/-- C6 amended witness: the three delay classes evaluated at a
concrete rate-limit message (second attempt), a concrete 503 message, and a
concrete parse-failure message, via `backoff_by_message_class`. -/
theorem backoff_by_message_class_witness :
    backoffDelay 1 "HTTP 429: busy" = 10000
    ∧ backoffDelay 0 "HTTP 503: unavailable" = 2000
    ∧ backoffDelay 0 "Failed to parse response: bad token" = 0 := by
  refine ⟨?_, ?_, ?_⟩
  · have h := (backoff_by_message_class Nat).1 1 "HTTP 429: busy" (by decide)
    simpa using h
  · exact (backoff_by_message_class Nat).2.1 0 "HTTP 503: unavailable"
      (by decide) (by decide)
  · exact (backoff_by_message_class Nat).2.2.1 0 "Failed to parse response: bad token"
      (by decide) (by decide)

/-- C7: `validateParsedLimit` accepts a provided value exactly when it is
an integer in `[1, 10000]` (a missing value is accepted with a `null`
normalized limit); every out-of-range or non-integer value is a fatal
violation carrying an error; an accepted integer above 1000 additionally
carries a non-fatal warning, and one at most 1000 carries none. -/
theorem limit_validation_range (v : JsLimitArg) :
    ((validateParsedLimit v).isValid = true ↔
      (v = .jsNull ∨ v = .jsUndefined ∨
        ∃ n, v = .jsInteger n ∧ 1 ≤ n ∧ n ≤ 10000))
    ∧ ((v = .jsNull ∨ v = .jsUndefined) →
        validateParsedLimit v =
          { isValid := true, normalizedLimit := some none })
    ∧ ((validateParsedLimit v).isValid = false →
        (validateParsedLimit v).error ≠ none)
    ∧ (∀ n : Int, v = .jsInteger n → 1 ≤ n → n ≤ 10000 →
        (validateParsedLimit v).normalizedLimit = some (some n)
        ∧ ((validateParsedLimit v).warnings.getD [] ≠ [] ↔ 1000 < n)) := by
  refine ⟨?_, ?_, ?_, ?_⟩
  · cases v with
    | jsNull => simp [validateParsedLimit]
    | jsUndefined => simp [validateParsedLimit]
    | jsNonNumber t => simp [validateParsedLimit]
    | jsNonIntegerNumber => simp [validateParsedLimit]
    | jsInteger n =>
      simp only [validateParsedLimit]
      by_cases h1 : n < 1
      · simp only [if_pos h1]
        constructor
        · intro h; cases h
        · rintro (h | h | ⟨m, hm, hm1, hm2⟩) <;> first
            | cases h
            | (injection hm with hm'; omega)
      · by_cases h2 : n > 10000
        · simp only [if_neg h1, if_pos h2]
          constructor
          · intro h; cases h
          · rintro (h | h | ⟨m, hm, hm1, hm2⟩) <;> first
              | cases h
              | (injection hm with hm'; omega)
        · simp only [if_neg h1, if_neg h2]
          constructor
          · intro _
            exact Or.inr (Or.inr ⟨n, rfl, by omega, by omega⟩)
          · intro _; trivial
  · rintro (h | h) <;> (subst h; rfl)
  · cases v with
    | jsNull => simp [validateParsedLimit]
    | jsUndefined => simp [validateParsedLimit]
    | jsNonNumber t => simp [validateParsedLimit]
    | jsNonIntegerNumber => simp [validateParsedLimit]
    | jsInteger n =>
      simp only [validateParsedLimit]
      by_cases h1 : n < 1
      · simp [if_pos h1]
      · by_cases h2 : n > 10000
        · simp [if_neg h1, if_pos h2]
        · simp [if_neg h1, if_neg h2]
  · rintro n rfl hge hle
    have h1 : ¬ n < 1 := by omega
    have h2 : ¬ n > 10000 := by omega
    simp only [validateParsedLimit, if_neg h1, if_neg h2]
    constructor
    · trivial
    · by_cases h3 : n > 1000
      · simp [if_pos h3, h3]
      · simp [if_neg h3]
        omega

/-- C7 witness: `validateParsedLimit` at the concrete values 10001
(rejected), absent (`null` normalized value), and 5000 (accepted with a
warning), via `limit_validation_range`. -/
theorem limit_validation_range_witness :
    (validateParsedLimit (.jsInteger 10001)).isValid = false
    ∧ validateParsedLimit .jsNull = { isValid := true, normalizedLimit := some none }
    ∧ (validateParsedLimit (.jsInteger 5000)).normalizedLimit = some (some 5000)
    ∧ (validateParsedLimit (.jsInteger 5000)).warnings.getD [] ≠ [] := by
  refine ⟨?_, ?_, ?_, ?_⟩
  · have h := (limit_validation_range (.jsInteger 10001)).1
    by_contra hc
    have hv : (validateParsedLimit (.jsInteger 10001)).isValid = true := by
      revert hc; cases (validateParsedLimit (.jsInteger 10001)).isValid <;> simp
    rcases h.mp hv with h' | h' | ⟨m, hm, hm1, hm2⟩
    · cases h'
    · cases h'
    · injection hm with hm'; omega
  · exact (limit_validation_range .jsNull).2.1 (Or.inl rfl)
  · exact ((limit_validation_range (.jsInteger 5000)).2.2.2 5000 rfl
      (by decide) (by decide)).1
  · exact ((limit_validation_range (.jsInteger 5000)).2.2.2 5000 rfl
      (by decide) (by decide)).2.mpr (by decide)

end OsmGeo
